import Mathlib

/-!
Shallow embedding of `src/aws.py` (cloud instance lifecycle tool).

The Python script resolves node metadata from hiera, then drives EC2
instance transitions (start / stop / toggle / status / check).  We model:

* the EC2 world as a list of instance records plus an id allocator and a
  public-ip assignment;
* every boto3 interaction as an `ApiCall` event appended to a trace;
* each top-level Python function (`metadata_get`, `metadata_print`,
  `ec2_start`, `ec2_stop`, `ec2_status`, `main`) as a pure Lean function
  from the world (and a hiera oracle) to a result carrying the new world,
  the API-call trace, the printed lines and the process exit code.

The hiera binary is an external collaborator; it is modelled as an oracle
`String → String → String` taking the item key (e.g. "metadata:hostname")
and the variable string (e.g. "fqdn=devbox"), exactly the two arguments
`hiera_get` passes to the subprocess.
-/

/-- One EC2 instance record as held by the provider (id, lifecycle state,
tag set, public ip).  The public ip is only meaningful once the instance
is running. -/
structure Inst where
  id : Nat
  state : String
  tags : List (String × String)
  publicIp : String
deriving Repr, DecidableEq

/-- The cloud-side world: the provider's instance list, the id the next
`create_instances` call will allocate, and the provider's assignment of
public ips to instance ids. -/
structure EC2World where
  instances : List Inst
  nextId : Nat
  ipOf : Nat → String

/-- Events for every call the script makes against the provider API:
opening the regional connection, a filtered describe (list), create,
create_tags, wait_until_running, stop and terminate. -/
inductive ApiCall where
  | connect (region : String)
  | listReq (filters : List (String × List String))
  | createReq (ami itype subnet secgroup keypair userdata : String)
  | tagReq (instId : Nat) (tags : List (String × String))
  | waitReq (instId : Nat)
  | stopReq (instId : Nat)
  | terminateReq (instId : Nat)
deriving Repr, DecidableEq

/-- Result of running one of the ec2_* functions: new world, API-call
trace, printed output lines. -/
structure Effect where
  world : EC2World
  calls : List ApiCall
  output : List String

/-- Result of running `main`: new world, API-call trace, printed output,
process exit code (`sys.exit(1)` gives 1, normal fall-through gives 0). -/
structure RunResult where
  world : EC2World
  calls : List ApiCall
  output : List String
  exitCode : Nat

/-- Metadata as the Python dict built by `metadata_get`: an association
list in insertion order. -/
abbrev Metadata := List (String × String)

/-- First value bound to a key, if any (Python dict lookup; keys are
unique in every list the script builds). -/
def mfind (m : Metadata) (k : String) : Option String :=
  (m.find? (fun p => p.1 = k)).map Prod.snd

/-- Total read of a metadata key; every access the script performs is on
a key that is present, so the default is never observed on those paths. -/
def mget (m : Metadata) (k : String) : String :=
  (mfind m k).getD ""

/-- Python dict assignment `metadata[k] = v` for a key already present:
replace the value in place, keeping insertion order. -/
def mset (m : Metadata) (k v : String) : Metadata :=
  m.map (fun p => if p.1 = k then (k, v) else p)

/-- `metadata_get` (aws.py lines 66-91): fetch the universal fields,
derive `fqdn = hostname ++ "." ++ domain`, and, only when the resolved
provider is `aws`, fetch the provider-specific fields under the
`metadata:aws:` namespace.  The hiera variable is `fqdn=<node>`. -/
def metadata_get (hiera : String → String → String) (node : String) : Metadata :=
  let v := "fqdn=" ++ node
  let base : Metadata :=
    [("hostname", hiera "metadata:hostname" v),
     ("domain", hiera "metadata:domain" v),
     ("provider", hiera "metadata:provider" v),
     ("role", hiera "metadata:role" v),
     ("repo", hiera "metadata:repo" v)]
  let withFqdn := base ++
    [("fqdn", hiera "metadata:hostname" v ++ "." ++ hiera "metadata:domain" v)]
  if hiera "metadata:provider" v = "aws" then
    withFqdn ++
      [("subnet", hiera "metadata:aws:subnet" v),
       ("secgroup", hiera "metadata:aws:secgroup" v),
       ("keypair", hiera "metadata:aws:keypair" v),
       ("ami", hiera "metadata:aws:ami" v),
       ("type", hiera "metadata:aws:type" v),
       ("region", hiera "metadata:aws:region" v)]
  else withFqdn

/-- Python `'{0:<10}'.format` / `'{0:20}'.format` on a string value:
left-justify by padding with spaces to the given width. -/
def padTo (s : String) (w : Nat) : String :=
  s ++ String.mk (List.replicate (w - s.length) ' ')

/-- `metadata_print` (aws.py lines 94-103): header line then one line per
key in insertion order. -/
def metadata_print (m : Metadata) : List String :=
  (padTo "parameter" 10 ++ " " ++ "value") :: m.map (fun p => padTo p.1 10 ++ " " ++ p.2)

/-- Value of the `Name` tag of an instance, if the tag is present. -/
def tagValue (i : Inst) (k : String) : Option String :=
  (i.tags.find? (fun p => p.1 = k)).map Prod.snd

/-- AWS `tag:Name` filter semantics for the values this script passes: a
literal fqdn matches exactly; the `"*"` wildcard (used by the global
status path) matches any instance that carries a Name tag. -/
def nameMatches (pat : String) (i : Inst) : Bool :=
  if pat = "*" then (tagValue i "Name").isSome
  else tagValue i "Name" = some pat

/-- The filter payload `ec2_start` sends (states pending/running first,
then the tag filter, as in aws.py lines 116-118). -/
def startFilterSpec (fqdn : String) : List (String × List String) :=
  [("instance-state-name", ["pending", "running"]), ("tag:Name", [fqdn])]

/-- Instances the `ec2_start` guard query returns: state pending or
running, Name tag matching the fqdn. -/
def startMatches (w : EC2World) (fqdn : String) : List Inst :=
  w.instances.filter
    (fun i => (i.state == "pending" || i.state == "running") && nameMatches fqdn i)

/-- The filter payload `ec2_stop` sends (aws.py lines 199-201). -/
def stopFilterSpec (fqdn : String) : List (String × List String) :=
  [("instance-state-name", ["running"]), ("tag:Name", [fqdn])]

/-- Instances the `ec2_stop` query returns: running, Name tag matching. -/
def stopMatches (w : EC2World) (fqdn : String) : List Inst :=
  w.instances.filter (fun i => i.state == "running" && nameMatches fqdn i)

/-- The filter payload `ec2_status` sends (tag filter first, then the
running state filter, aws.py lines 217-227). -/
def statusFilterSpec (fqdn : String) : List (String × List String) :=
  [("tag:Name", [fqdn]), ("instance-state-name", ["running"])]

/-- Instances the `ec2_status` query returns. -/
def statusMatches (w : EC2World) (fqdn : String) : List Inst :=
  w.instances.filter (fun i => nameMatches fqdn i && i.state == "running")

/-- The cloud-init userdata template of `ec2_start` (aws.py lines
127-143), a function of hostname, fqdn, role and repo only. -/
def userdataFor (m : Metadata) : String :=
  "#cloud-config\npackage_update: true\nhostname: " ++ mget m "hostname" ++
  "\nfqdn: " ++ mget m "fqdn" ++
  "\nmanage_etc_hosts: true\npackages:\n  - git\nwrite_files:\n" ++
  "  - path: /etc/facter/facts.d/hostgroup.txt\n    content: hostgroup=aws\n" ++
  "  - path: /etc/facter/facts.d/role.txt\n    content: role=" ++ mget m "role" ++
  "\nruncmd:\n  - git clone " ++ mget m "repo" ++
  " /etc/puppet\n  - /etc/puppet/support_scripts/bootstrap-puppet.sh"

/-- `ec2_status` (aws.py lines 209-237): query running instances matching
the fqdn; zero matches prints the fixed "No instances running" line,
otherwise a count line, a header, and one row of id and public ip per
instance.  The world is not changed. -/
def ec2_status (w : EC2World) (m : Metadata) : Effect :=
  let fq := mget m "fqdn"
  let found := statusMatches w fq
  let calls := [ApiCall.listReq (statusFilterSpec fq)]
  if found.length = 0 then
    { world := w, calls := calls, output := ["No instances running"] }
  else
    { world := w, calls := calls,
      output := (toString found.length ++ " instances running")
        :: (padTo "instance_id" 20 ++ " " ++ "public_ip_address")
        :: found.map (fun i => padTo (toString i.id) 20 ++ " " ++ padTo i.publicIp 20) }

/-- `ec2_stop` (aws.py lines 192-206): query running instances matching
the fqdn; for each one print a terminating line and issue a stop request
followed by a terminate request.  Each targeted instance ends in the
terminated state. -/
def ec2_stop (w : EC2World) (m : Metadata) : Effect :=
  let fq := mget m "fqdn"
  let found := stopMatches w fq
  { world := { w with instances :=
        w.instances.map (fun i => if i ∈ found then { i with state := "terminated" } else i) },
    calls := ApiCall.listReq (stopFilterSpec fq)
      :: found.flatMap (fun i => [ApiCall.stopReq i.id, ApiCall.terminateReq i.id]),
    output := found.map (fun i => "Terminating instance id " ++ toString i.id) }

/-- The instance `ec2_start` leaves behind on the create path: allocated
id, tagged Role then Name (the order `create_tags` lists them), running
after `wait_until_running`, with the provider-assigned public ip. -/
def startedInst (w : EC2World) (m : Metadata) : Inst :=
  { id := w.nextId, state := "running",
    tags := [("Role", mget m "role"), ("Name", mget m "fqdn")],
    publicIp := w.ipOf w.nextId }

/-- The world `ec2_start` leaves behind on the create path: the new
instance appended, the id allocator advanced. -/
def freshWorld (w : EC2World) (m : Metadata) : EC2World :=
  { instances := w.instances ++ [startedInst w m],
    nextId := w.nextId + 1, ipOf := w.ipOf }

/-- `ec2_start` (aws.py lines 106-189): count instances in pending or
running state with a matching Name tag; if any, print the
"is currently running" line and return without creating.  Otherwise
render the userdata, create exactly one untagged pending instance, tag
it with Role and Name, wait until it is running, and finish by running
`ec2_status` on the resulting world. -/
def ec2_start (w : EC2World) (m : Metadata) : Effect :=
  let fq := mget m "fqdn"
  let listCall := ApiCall.listReq (startFilterSpec fq)
  if 0 < (startMatches w fq).length then
    { world := w, calls := [listCall],
      output := [fq ++ " is currently running"] }
  else
    let nid := w.nextId
    let tagList := [("Role", mget m "role"), ("Name", fq)]
    let st := ec2_status (freshWorld w m) m
    { world := st.world,
      calls := listCall
        :: ApiCall.createReq (mget m "ami") (mget m "type") (mget m "subnet")
             (mget m "secgroup") (mget m "keypair") (userdataFor m)
        :: ApiCall.tagReq nid tagList
        :: ApiCall.waitReq nid
        :: st.calls,
      output := st.output }

/-- The docopt commands of the script. -/
inductive Cmd where
  | start | stop | toggle | status | check
deriving Repr, DecidableEq

/-- Parsed CLI arguments: the command and the optional node name. -/
structure Args where
  cmd : Cmd
  name : Option String
deriving Repr, DecidableEq

/-- The node string `main` hands to `metadata_get`: Python formats the
absent docopt value `None` into the hiera variable as the text "None". -/
def nodeName (args : Args) : String :=
  match args.name with
  | some n => n
  | none => "None"

/-- The Python function `main` (aws.py lines 240-283); named `mainRun`
here because Lean reserves the name `main` for an entry point.  Resolve
metadata, then dispatch.
`check` prints the metadata and touches no cloud API.  Provider `aws`
opens the regional connection and dispatches to start/stop/status; the
`toggle` branch is literally `pass`.  Provider `do` prints a
not-yet-supported line.  Otherwise, `status` rewrites the fqdn to the
`"*"` wildcard and runs the status query against the fixed region
us-east-1, and any remaining case prints the unsupported-provider line
and exits 1. -/
def mainRun (args : Args) (hiera : String → String → String) (w : EC2World) : RunResult :=
  let m := metadata_get hiera (nodeName args)
  if args.cmd = Cmd.check then
    { world := w, calls := [], output := metadata_print m, exitCode := 0 }
  else if mget m "provider" = "aws" then
    let conn := ApiCall.connect (mget m "region")
    if args.cmd = Cmd.start then
      let e := ec2_start w m
      { world := e.world, calls := conn :: e.calls, output := e.output, exitCode := 0 }
    else if args.cmd = Cmd.stop then
      let e := ec2_stop w m
      { world := e.world, calls := conn :: e.calls, output := e.output, exitCode := 0 }
    else if args.cmd = Cmd.status then
      let e := ec2_status w m
      { world := e.world, calls := conn :: e.calls, output := e.output, exitCode := 0 }
    else
      { world := w, calls := [conn], output := [], exitCode := 0 }
  else if mget m "provider" = "do" then
    { world := w, calls := [], output := ["Digital ocean not yet supported"], exitCode := 0 }
  else if args.cmd = Cmd.status then
    let m2 := mset m "fqdn" "*"
    let e := ec2_status w m2
    { world := e.world, calls := ApiCall.connect "us-east-1" :: e.calls,
      output := e.output, exitCode := 0 }
  else
    { world := w, calls := [],
      output := ["Unsupported metadata:provider from hiera: " ++ mget m "provider"],
      exitCode := 1 }

/-- Concrete hiera oracle: the aws metadata of spec scenario A, with the
region changed to us-west-2 so that region handling is observable.  It
answers the same for every node, as a hiera hierarchy with defaults
does. -/
def oracleA : String → String → String := fun item _ =>
  if item = "metadata:hostname" then "devbox"
  else if item = "metadata:domain" then "example.com"
  else if item = "metadata:provider" then "aws"
  else if item = "metadata:role" then "devbox"
  else if item = "metadata:repo" then "https://x/y.git"
  else if item = "metadata:aws:subnet" then "subnet-1"
  else if item = "metadata:aws:secgroup" then "sg-1"
  else if item = "metadata:aws:keypair" then "k1"
  else if item = "metadata:aws:ami" then "ami-1"
  else if item = "metadata:aws:type" then "t2.nano"
  else if item = "metadata:aws:region" then "us-west-2"
  else "nil"

/-- Concrete hiera oracle that resolves nothing (the hiera CLI prints
"nil" for an absent key). -/
def oracleNil : String → String → String := fun _ _ => "nil"

/-- Concrete hiera oracle whose provider is "do". -/
def oracleDo : String → String → String := fun item _ =>
  if item = "metadata:provider" then "do"
  else if item = "metadata:hostname" then "box"
  else if item = "metadata:domain" then "example.com"
  else "x"

/-- Concrete empty cloud world. -/
def w0 : EC2World :=
  { instances := [], nextId := 7, ipOf := fun n => "203.0.113." ++ toString n }

/-- Concrete metadata resolved from `oracleA`. -/
def mA : Metadata := metadata_get oracleA "devbox"

/-- A second concrete metadata record: same hostname, fqdn, role and repo
as `mA` but different ami, type, subnet, secgroup, keypair and region. -/
def mB : Metadata :=
  [("hostname", "devbox"), ("domain", "example.com"), ("provider", "aws"),
   ("role", "devbox"), ("repo", "https://x/y.git"), ("fqdn", "devbox.example.com"),
   ("subnet", "subnet-9"), ("secgroup", "sg-9"), ("keypair", "k9"),
   ("ami", "ami-9"), ("type", "m5.large"), ("region", "eu-west-1")]

/-- `oracleA` with only the hostname answer changed. -/
def oracleA2 : String → String → String := fun item v =>
  if item = "metadata:hostname" then "devbox2" else oracleA item v

/-- A concrete instance already running under the identity of `mA`. -/
def iBusy : Inst :=
  { id := 1, state := "running", tags := [("Name", "devbox.example.com")],
    publicIp := "203.0.113.1" }

/-- A concrete world in which `iBusy` is running. -/
def wBusy : EC2World :=
  { instances := [iBusy], nextId := 2, ipOf := fun n => "203.0.113." ++ toString n }

/-! ### Helper lemmas about metadata resolution -/

theorem mget_hostname (hiera : String → String → String) (node : String) :
    mget (metadata_get hiera node) "hostname" = hiera "metadata:hostname" ("fqdn=" ++ node) := by
  by_cases hp : hiera "metadata:provider" ("fqdn=" ++ node) = "aws" <;>
    simp [metadata_get, mget, mfind, List.find?, hp]

theorem mget_domain (hiera : String → String → String) (node : String) :
    mget (metadata_get hiera node) "domain" = hiera "metadata:domain" ("fqdn=" ++ node) := by
  by_cases hp : hiera "metadata:provider" ("fqdn=" ++ node) = "aws" <;>
    simp [metadata_get, mget, mfind, List.find?, hp]

theorem mget_provider (hiera : String → String → String) (node : String) :
    mget (metadata_get hiera node) "provider" = hiera "metadata:provider" ("fqdn=" ++ node) := by
  by_cases hp : hiera "metadata:provider" ("fqdn=" ++ node) = "aws" <;>
    simp [metadata_get, mget, mfind, List.find?, hp]

theorem mget_role (hiera : String → String → String) (node : String) :
    mget (metadata_get hiera node) "role" = hiera "metadata:role" ("fqdn=" ++ node) := by
  by_cases hp : hiera "metadata:provider" ("fqdn=" ++ node) = "aws" <;>
    simp [metadata_get, mget, mfind, List.find?, hp]

theorem mget_repo (hiera : String → String → String) (node : String) :
    mget (metadata_get hiera node) "repo" = hiera "metadata:repo" ("fqdn=" ++ node) := by
  by_cases hp : hiera "metadata:provider" ("fqdn=" ++ node) = "aws" <;>
    simp [metadata_get, mget, mfind, List.find?, hp]

theorem mget_fqdn (hiera : String → String → String) (node : String) :
    mget (metadata_get hiera node) "fqdn" =
      hiera "metadata:hostname" ("fqdn=" ++ node) ++ "." ++
        hiera "metadata:domain" ("fqdn=" ++ node) := by
  by_cases hp : hiera "metadata:provider" ("fqdn=" ++ node) = "aws" <;>
    simp [metadata_get, mget, mfind, List.find?, hp]

theorem mget_subnet (hiera : String → String → String) (node : String) :
    mget (metadata_get hiera node) "subnet" =
      if hiera "metadata:provider" ("fqdn=" ++ node) = "aws"
      then hiera "metadata:aws:subnet" ("fqdn=" ++ node) else "" := by
  by_cases hp : hiera "metadata:provider" ("fqdn=" ++ node) = "aws" <;>
    simp [metadata_get, mget, mfind, List.find?, hp]

theorem mget_secgroup (hiera : String → String → String) (node : String) :
    mget (metadata_get hiera node) "secgroup" =
      if hiera "metadata:provider" ("fqdn=" ++ node) = "aws"
      then hiera "metadata:aws:secgroup" ("fqdn=" ++ node) else "" := by
  by_cases hp : hiera "metadata:provider" ("fqdn=" ++ node) = "aws" <;>
    simp [metadata_get, mget, mfind, List.find?, hp]

theorem mget_keypair (hiera : String → String → String) (node : String) :
    mget (metadata_get hiera node) "keypair" =
      if hiera "metadata:provider" ("fqdn=" ++ node) = "aws"
      then hiera "metadata:aws:keypair" ("fqdn=" ++ node) else "" := by
  by_cases hp : hiera "metadata:provider" ("fqdn=" ++ node) = "aws" <;>
    simp [metadata_get, mget, mfind, List.find?, hp]

theorem mget_ami (hiera : String → String → String) (node : String) :
    mget (metadata_get hiera node) "ami" =
      if hiera "metadata:provider" ("fqdn=" ++ node) = "aws"
      then hiera "metadata:aws:ami" ("fqdn=" ++ node) else "" := by
  by_cases hp : hiera "metadata:provider" ("fqdn=" ++ node) = "aws" <;>
    simp [metadata_get, mget, mfind, List.find?, hp]

theorem mget_type (hiera : String → String → String) (node : String) :
    mget (metadata_get hiera node) "type" =
      if hiera "metadata:provider" ("fqdn=" ++ node) = "aws"
      then hiera "metadata:aws:type" ("fqdn=" ++ node) else "" := by
  by_cases hp : hiera "metadata:provider" ("fqdn=" ++ node) = "aws" <;>
    simp [metadata_get, mget, mfind, List.find?, hp]

theorem mget_region (hiera : String → String → String) (node : String) :
    mget (metadata_get hiera node) "region" =
      if hiera "metadata:provider" ("fqdn=" ++ node) = "aws"
      then hiera "metadata:aws:region" ("fqdn=" ++ node) else "" := by
  by_cases hp : hiera "metadata:provider" ("fqdn=" ++ node) = "aws" <;>
    simp [metadata_get, mget, mfind, List.find?, hp]

theorem keys_metadata_get (hiera : String → String → String) (node : String) :
    (metadata_get hiera node).map Prod.fst =
      if hiera "metadata:provider" ("fqdn=" ++ node) = "aws"
      then ["hostname", "domain", "provider", "role", "repo", "fqdn",
            "subnet", "secgroup", "keypair", "ami", "type", "region"]
      else ["hostname", "domain", "provider", "role", "repo", "fqdn"] := by
  by_cases hp : hiera "metadata:provider" ("fqdn=" ++ node) = "aws" <;>
    simp [metadata_get, hp]

theorem mget_mset_fqdn (m : Metadata) (hk : "fqdn" ∈ m.map Prod.fst) :
    mget (mset m "fqdn" "*") "fqdn" = "*" := by
  induction m with
  | nil => simp at hk
  | cons p rest ih =>
    by_cases h : p.1 = "fqdn"
    · simp [mset, mget, mfind, List.find?, h]
    · simp only [List.map_cons, List.mem_cons] at hk
      rcases hk with hk | hk
      · exact absurd hk.symm h
      · simpa [mset, mget, mfind, List.find?, h] using ih hk

theorem string_append_cancel_right (a b c : String) (h : a ++ c = b ++ c) : a = b := by
  apply String.ext
  have hd := congrArg String.data h
  simp only [String.data_append] at hd
  exact List.append_cancel_right hd

theorem string_append_cancel_left (a b c : String) (h : a ++ b = a ++ c) : b = c := by
  apply String.ext
  have hd := congrArg String.data h
  simp only [String.data_append] at hd
  exact List.append_cancel_left hd

/-! ### Helper lemmas about the start path -/

theorem ec2_start_busy (w : EC2World) (m : Metadata)
    (h : 0 < (startMatches w (mget m "fqdn")).length) :
    ec2_start w m =
      { world := w, calls := [ApiCall.listReq (startFilterSpec (mget m "fqdn"))],
        output := [mget m "fqdn" ++ " is currently running"] } := by
  simp [ec2_start, h]

theorem nameMatches_startedInst (w : EC2World) (m : Metadata) :
    nameMatches (mget m "fqdn") (startedInst w m) = true := by
  by_cases h : mget m "fqdn" = "*" <;>
    simp [nameMatches, startedInst, tagValue, List.find?, h]

theorem startPred_startedInst (w : EC2World) (m : Metadata) :
    (((startedInst w m).state == "pending" || (startedInst w m).state == "running")
      && nameMatches (mget m "fqdn") (startedInst w m)) = true :=
  Bool.and_eq_true_iff.mpr ⟨rfl, nameMatches_startedInst w m⟩

theorem statusPred_startedInst (w : EC2World) (m : Metadata) :
    (nameMatches (mget m "fqdn") (startedInst w m)
      && ((startedInst w m).state == "running")) = true :=
  Bool.and_eq_true_iff.mpr ⟨nameMatches_startedInst w m, rfl⟩

theorem statusMatches_nil_of_startMatches_nil (w : EC2World) (fq : String)
    (h : startMatches w fq = []) : statusMatches w fq = [] := by
  unfold startMatches at h
  unfold statusMatches
  rw [List.filter_eq_nil_iff] at h ⊢
  intro i hi hsi
  refine h i hi ?_
  simp only [Bool.and_eq_true, Bool.or_eq_true] at hsi ⊢
  exact ⟨Or.inr hsi.2, hsi.1⟩

theorem startMatches_after_fresh (w : EC2World) (m : Metadata)
    (h : startMatches w (mget m "fqdn") = []) :
    startMatches (freshWorld w m) (mget m "fqdn") = [startedInst w m] := by
  unfold startMatches at h ⊢
  simp only [freshWorld]
  rw [List.filter_append, h, List.nil_append]
  have hp := startPred_startedInst w m
  simp [List.filter, hp]

theorem statusMatches_after_fresh (w : EC2World) (m : Metadata)
    (h : startMatches w (mget m "fqdn") = []) :
    statusMatches (freshWorld w m) (mget m "fqdn") = [startedInst w m] := by
  have h0 := statusMatches_nil_of_startMatches_nil w (mget m "fqdn") h
  unfold statusMatches at h0 ⊢
  simp only [freshWorld]
  rw [List.filter_append, h0, List.nil_append]
  have hp := statusPred_startedInst w m
  simp [List.filter, hp]

theorem startedInst_id (w : EC2World) (m : Metadata) : (startedInst w m).id = w.nextId := rfl

theorem startedInst_publicIp (w : EC2World) (m : Metadata) :
    (startedInst w m).publicIp = w.ipOf w.nextId := rfl

theorem toString_one_nat : toString (1 : Nat) = "1" := rfl

theorem ec2_start_fresh (w : EC2World) (m : Metadata)
    (h : startMatches w (mget m "fqdn") = []) :
    ec2_start w m =
      { world := freshWorld w m,
        calls := [ApiCall.listReq (startFilterSpec (mget m "fqdn")),
                  ApiCall.createReq (mget m "ami") (mget m "type") (mget m "subnet")
                    (mget m "secgroup") (mget m "keypair") (userdataFor m),
                  ApiCall.tagReq w.nextId [("Role", mget m "role"), ("Name", mget m "fqdn")],
                  ApiCall.waitReq w.nextId,
                  ApiCall.listReq (statusFilterSpec (mget m "fqdn"))],
        output := ["1 instances running",
                   padTo "instance_id" 20 ++ " " ++ "public_ip_address",
                   padTo (toString w.nextId) 20 ++ " " ++ padTo (w.ipOf w.nextId) 20] } := by
  have hw3 := statusMatches_after_fresh w m h
  have hlen : ¬ 0 < (startMatches w (mget m "fqdn")).length := by
    rw [h]; simp
  unfold ec2_start
  rw [if_neg hlen]
  simp [ec2_status, hw3, startedInst_id, startedInst_publicIp, toString_one_nat]

theorem ec2_status_calls (w : EC2World) (m : Metadata) :
    (ec2_status w m).calls = [ApiCall.listReq (statusFilterSpec (mget m "fqdn"))] := by
  by_cases h : (statusMatches w (mget m "fqdn")).length = 0 <;> simp [ec2_status, h]

/-- C1: when a matching instance is pending or running, start reports
"currently running" and performs no create; under the at-most-one
identity invariant, two successive starts leave exactly one matching
pending-or-running instance. -/
theorem start_is_idempotent (w : EC2World) (m : Metadata) :
    (0 < (startMatches w (mget m "fqdn")).length →
      ec2_start w m =
        { world := w, calls := [ApiCall.listReq (startFilterSpec (mget m "fqdn"))],
          output := [mget m "fqdn" ++ " is currently running"] })
    ∧ ((startMatches w (mget m "fqdn")).length ≤ 1 →
      (startMatches ((ec2_start (ec2_start w m).world m).world) (mget m "fqdn")).length = 1) := by
  constructor
  · exact ec2_start_busy w m
  · intro hle
    rcases Nat.eq_zero_or_pos (startMatches w (mget m "fqdn")).length with hz | hpos
    · have h0 : startMatches w (mget m "fqdn") = [] := List.length_eq_zero.mp hz
      have hm1 := startMatches_after_fresh w m h0
      rw [ec2_start_fresh w m h0]
      show (startMatches (ec2_start (freshWorld w m) m).world (mget m "fqdn")).length = 1
      have hpos1 : 0 < (startMatches (freshWorld w m) (mget m "fqdn")).length := by
        rw [hm1]; simp
      rw [ec2_start_busy (freshWorld w m) m hpos1]
      show (startMatches (freshWorld w m) (mget m "fqdn")).length = 1
      rw [hm1]
      rfl
    · have h1 := ec2_start_busy w m hpos
      rw [h1]
      show (startMatches (ec2_start w m).world (mget m "fqdn")).length = 1
      rw [h1]
      show (startMatches w (mget m "fqdn")).length = 1
      omega

theorem start_is_idempotent_witness :
    (0 < (startMatches wBusy (mget mA "fqdn")).length
      ∧ (ec2_start wBusy mA).output = [mget mA "fqdn" ++ " is currently running"])
    ∧ ((startMatches w0 (mget mA "fqdn")).length ≤ 1
      ∧ (startMatches ((ec2_start (ec2_start w0 mA).world mA).world) (mget mA "fqdn")).length = 1) := by
  refine ⟨⟨by decide, ?_⟩, by decide, (start_is_idempotent w0 mA).2 (by decide)⟩
  rw [(start_is_idempotent wBusy mA).1 (by decide)]

/-- C3: stop issues a stop request followed by a terminate request to
exactly the running instances whose Name tag matches the fqdn, and with
zero matches it is a no-op that does not error. -/
theorem stop_targets_exactly_matches (w : EC2World) (m : Metadata) :
    (ec2_stop w m).calls =
      ApiCall.listReq (stopFilterSpec (mget m "fqdn"))
        :: (stopMatches w (mget m "fqdn")).flatMap
            (fun i => [ApiCall.stopReq i.id, ApiCall.terminateReq i.id])
    ∧ (stopMatches w (mget m "fqdn") = [] →
        ec2_stop w m =
          { world := w, calls := [ApiCall.listReq (stopFilterSpec (mget m "fqdn"))],
            output := [] }) := by
  constructor
  · rfl
  · intro h
    simp [ec2_stop, h]

theorem stop_targets_exactly_matches_witness :
    stopMatches w0 (mget mA "fqdn") = []
    ∧ ec2_stop w0 mA =
        { world := w0, calls := [ApiCall.listReq (stopFilterSpec (mget mA "fqdn"))],
          output := [] } :=
  ⟨rfl, (stop_targets_exactly_matches w0 mA).2 rfl⟩

/-- C4: on an absent identity, start creates exactly one instance, tags
it with Role and Name only after the create call, waits until running,
and reports the resulting public ip. -/
theorem start_fresh_provisions (w : EC2World) (m : Metadata)
    (h : startMatches w (mget m "fqdn") = []) :
    ec2_start w m =
      { world := freshWorld w m,
        calls := [ApiCall.listReq (startFilterSpec (mget m "fqdn")),
                  ApiCall.createReq (mget m "ami") (mget m "type") (mget m "subnet")
                    (mget m "secgroup") (mget m "keypair") (userdataFor m),
                  ApiCall.tagReq w.nextId [("Role", mget m "role"), ("Name", mget m "fqdn")],
                  ApiCall.waitReq w.nextId,
                  ApiCall.listReq (statusFilterSpec (mget m "fqdn"))],
        output := ["1 instances running",
                   padTo "instance_id" 20 ++ " " ++ "public_ip_address",
                   padTo (toString w.nextId) 20 ++ " " ++ padTo (w.ipOf w.nextId) 20] } :=
  ec2_start_fresh w m h

theorem start_fresh_provisions_witness :
    startMatches w0 (mget mA "fqdn") = []
    ∧ (ec2_start w0 mA).world = freshWorld w0 mA
    ∧ (ec2_start w0 mA).output =
        ["1 instances running",
         padTo "instance_id" 20 ++ " " ++ "public_ip_address",
         padTo (toString w0.nextId) 20 ++ " " ++ padTo (w0.ipOf w0.nextId) 20] := by
  refine ⟨rfl, ?_, ?_⟩ <;> rw [start_fresh_provisions w0 mA rfl]

/-- C2 (code bug): the toggle command is a bare pass in main; with an aws
provider and no matching instance it opens the connection and performs
no start and no stop, leaving the world unchanged, although the module
docstring promises start-if-stopped / stop-if-started. -/
theorem toggle_branch_is_noop :
    (mainRun { cmd := Cmd.toggle, name := some "devbox" } oracleA w0).world = w0
    ∧ (mainRun { cmd := Cmd.toggle, name := some "devbox" } oracleA w0).calls
        = [ApiCall.connect "us-west-2"]
    ∧ (mainRun { cmd := Cmd.toggle, name := some "devbox" } oracleA w0).output = []
    ∧ (mainRun { cmd := Cmd.toggle, name := some "devbox" } oracleA w0).exitCode = 0 :=
  ⟨rfl, rfl, rfl, rfl⟩

/-- C5 counterexample: provider "do" has no implementation, yet the run
reports "Digital ocean not yet supported" and exits 0, not non-zero. -/
theorem do_provider_exits_zero :
    mget (metadata_get oracleDo (nodeName { cmd := Cmd.start, name := some "box" })) "provider"
        ≠ "aws"
    ∧ (mainRun { cmd := Cmd.start, name := some "box" } oracleDo w0).exitCode = 0
    ∧ (mainRun { cmd := Cmd.start, name := some "box" } oracleDo w0).output
        = ["Digital ocean not yet supported"] :=
  ⟨by decide, rfl, rfl⟩

/-- C5 amended: for a provider that is neither aws nor do, and a command
other than check and status, main reports the unsupported provider and
exits 1; the do provider instead gets its own message with exit 0. -/
theorem unsupported_provider_exits_one (args : Args) (hiera : String → String → String)
    (w : EC2World)
    (hc : args.cmd ≠ Cmd.check) (hs : args.cmd ≠ Cmd.status)
    (ha : mget (metadata_get hiera (nodeName args)) "provider" ≠ "aws")
    (hd : mget (metadata_get hiera (nodeName args)) "provider" ≠ "do") :
    mainRun args hiera w =
      { world := w, calls := [],
        output := ["Unsupported metadata:provider from hiera: "
          ++ mget (metadata_get hiera (nodeName args)) "provider"],
        exitCode := 1 } := by
  simp [mainRun, hc, hs, ha, hd]

theorem unsupported_provider_exits_one_witness :
    mget (metadata_get oracleNil (nodeName { cmd := Cmd.start, name := some "b" })) "provider"
        ≠ "aws"
    ∧ (mainRun { cmd := Cmd.start, name := some "b" } oracleNil w0).exitCode = 1 := by
  refine ⟨by decide, ?_⟩
  rw [unsupported_provider_exits_one { cmd := Cmd.start, name := some "b" } oracleNil w0
    (by decide) (by decide) (by decide) (by decide)]

/-- C7: the check command resolves and prints metadata only; no provider
connection is opened and no cloud API call is issued. -/
theorem check_makes_no_cloud_calls (args : Args) (hiera : String → String → String)
    (w : EC2World) (h : args.cmd = Cmd.check) :
    mainRun args hiera w =
      { world := w, calls := [],
        output := metadata_print (metadata_get hiera (nodeName args)), exitCode := 0 } := by
  simp [mainRun, h]

theorem check_makes_no_cloud_calls_witness :
    ({ cmd := Cmd.check, name := some "devbox" } : Args).cmd = Cmd.check
    ∧ (mainRun { cmd := Cmd.check, name := some "devbox" } oracleA w0).calls = [] := by
  refine ⟨rfl, ?_⟩
  rw [check_makes_no_cloud_calls { cmd := Cmd.check, name := some "devbox" } oracleA w0 rfl]

/-- C6: resolve builds fqdn as the exact concatenation hostname ++ "." ++
domain; changing only the hostname answer, or only the domain answer, of
the config store changes fqdn and leaves every other resolved field
unchanged. -/
theorem fqdn_exact_concatenation (h1 h2 : String → String → String) (node : String) :
    (mget (metadata_get h1 node) "fqdn"
        = mget (metadata_get h1 node) "hostname" ++ "." ++ mget (metadata_get h1 node) "domain")
    ∧ ((∀ it, it ≠ "metadata:hostname" → h1 it ("fqdn=" ++ node) = h2 it ("fqdn=" ++ node)) →
        h1 "metadata:hostname" ("fqdn=" ++ node) ≠ h2 "metadata:hostname" ("fqdn=" ++ node) →
        mget (metadata_get h1 node) "fqdn" ≠ mget (metadata_get h2 node) "fqdn"
        ∧ ∀ k ∈ (["domain", "provider", "role", "repo",
                  "subnet", "secgroup", "keypair", "ami", "type", "region"] : List String),
            mget (metadata_get h1 node) k = mget (metadata_get h2 node) k)
    ∧ ((∀ it, it ≠ "metadata:domain" → h1 it ("fqdn=" ++ node) = h2 it ("fqdn=" ++ node)) →
        h1 "metadata:domain" ("fqdn=" ++ node) ≠ h2 "metadata:domain" ("fqdn=" ++ node) →
        mget (metadata_get h1 node) "fqdn" ≠ mget (metadata_get h2 node) "fqdn"
        ∧ ∀ k ∈ (["hostname", "provider", "role", "repo",
                  "subnet", "secgroup", "keypair", "ami", "type", "region"] : List String),
            mget (metadata_get h1 node) k = mget (metadata_get h2 node) k) := by
  refine ⟨by rw [mget_fqdn, mget_hostname, mget_domain], ?_, ?_⟩
  · intro hag hneq
    have hdom := hag "metadata:domain" (by decide)
    have hprov := hag "metadata:provider" (by decide)
    have hrole := hag "metadata:role" (by decide)
    have hrepo := hag "metadata:repo" (by decide)
    have hsub := hag "metadata:aws:subnet" (by decide)
    have hsec := hag "metadata:aws:secgroup" (by decide)
    have hkey := hag "metadata:aws:keypair" (by decide)
    have hami := hag "metadata:aws:ami" (by decide)
    have htyp := hag "metadata:aws:type" (by decide)
    have hreg := hag "metadata:aws:region" (by decide)
    constructor
    · rw [mget_fqdn, mget_fqdn, hdom]
      intro hcontra
      exact hneq (string_append_cancel_right _ _ _
        (string_append_cancel_right _ _ _ hcontra))
    · intro k hk
      fin_cases hk <;>
        simp [mget_domain, mget_provider, mget_role, mget_repo, mget_subnet,
          mget_secgroup, mget_keypair, mget_ami, mget_type, mget_region,
          hdom, hprov, hrole, hrepo, hsub, hsec, hkey, hami, htyp, hreg]
  · intro hag hneq
    have hhost := hag "metadata:hostname" (by decide)
    have hprov := hag "metadata:provider" (by decide)
    have hrole := hag "metadata:role" (by decide)
    have hrepo := hag "metadata:repo" (by decide)
    have hsub := hag "metadata:aws:subnet" (by decide)
    have hsec := hag "metadata:aws:secgroup" (by decide)
    have hkey := hag "metadata:aws:keypair" (by decide)
    have hami := hag "metadata:aws:ami" (by decide)
    have htyp := hag "metadata:aws:type" (by decide)
    have hreg := hag "metadata:aws:region" (by decide)
    constructor
    · rw [mget_fqdn, mget_fqdn, hhost]
      intro hcontra
      exact hneq (string_append_cancel_left _ _ _ hcontra)
    · intro k hk
      fin_cases hk <;>
        simp [mget_hostname, mget_provider, mget_role, mget_repo, mget_subnet,
          mget_secgroup, mget_keypair, mget_ami, mget_type, mget_region,
          hhost, hprov, hrole, hrepo, hsub, hsec, hkey, hami, htyp, hreg]

theorem fqdn_exact_concatenation_witness :
    oracleA "metadata:hostname" ("fqdn=" ++ "devbox")
        ≠ oracleA2 "metadata:hostname" ("fqdn=" ++ "devbox")
    ∧ mget (metadata_get oracleA "devbox") "fqdn" ≠ mget (metadata_get oracleA2 "devbox") "fqdn" := by
  have hag : ∀ it, it ≠ "metadata:hostname" →
      oracleA it ("fqdn=" ++ "devbox") = oracleA2 it ("fqdn=" ++ "devbox") := by
    intro it hit
    simp [oracleA2, hit]
  exact ⟨by decide,
    ((fqdn_exact_concatenation oracleA oracleA2 "devbox").2.1 hag (by decide)).1⟩

/-- C8 counterexample: with no node identifier but a config store that
resolves provider aws for the absent node, status queries with the
resolved fqdn as Name filter in the resolved region, not with the "*"
wildcard in a fixed region. -/
theorem status_without_name_not_always_wildcard :
    ({ cmd := Cmd.status, name := none } : Args).name = none
    ∧ (mainRun { cmd := Cmd.status, name := none } oracleA w0).calls
        = [ApiCall.connect "us-west-2",
           ApiCall.listReq [("tag:Name", ["devbox.example.com"]),
                            ("instance-state-name", ["running"])]] :=
  ⟨rfl, rfl⟩

/-- C8 amended: the status reporter renders zero matches as the fixed
"No instances running" line, and one or more matches as count plus
header plus one row per instance (never an empty table); and status with
no node identifier, provided the store resolves neither aws nor do for
the absent node, queries with the "*" wildcard Name filter in the fixed
region us-east-1. -/
theorem status_reporting (w : EC2World) (m : Metadata) (args : Args)
    (hiera : String → String → String) :
    (statusMatches w (mget m "fqdn") = [] →
      (ec2_status w m).output = ["No instances running"])
    ∧ (statusMatches w (mget m "fqdn") ≠ [] →
      (ec2_status w m).output.length = (statusMatches w (mget m "fqdn")).length + 2)
    ∧ (args.cmd = Cmd.status → args.name = none →
      mget (metadata_get hiera "None") "provider" ≠ "aws" →
      mget (metadata_get hiera "None") "provider" ≠ "do" →
      (mainRun args hiera w).calls
          = [ApiCall.connect "us-east-1",
             ApiCall.listReq [("tag:Name", ["*"]), ("instance-state-name", ["running"])]]
        ∧ (mainRun args hiera w).output
            = (ec2_status w (mset (metadata_get hiera "None") "fqdn" "*")).output) := by
  refine ⟨?_, ?_, ?_⟩
  · intro h
    simp [ec2_status, h]
  · intro hne
    have hlen : ¬ (statusMatches w (mget m "fqdn")).length = 0 := by
      rw [List.length_eq_zero]; exact hne
    simp [ec2_status, hlen]
  · intro hs hn ha hd
    have hnode : nodeName args = "None" := by simp [nodeName, hn]
    have ha' : hiera "metadata:provider" ("fqdn=" ++ "None") ≠ "aws" := by
      rw [← mget_provider hiera "None"]; exact ha
    have hkey : "fqdn" ∈ (metadata_get hiera "None").map Prod.fst := by
      rw [keys_metadata_get, if_neg ha']; decide
    have hfq := mget_mset_fqdn (metadata_get hiera "None") hkey
    constructor
    · simp [mainRun, hs, hnode, ha, hd, ec2_status_calls, hfq, statusFilterSpec]
    · simp [mainRun, hs, hnode, ha, hd]

theorem status_reporting_witness :
    mget (metadata_get oracleNil "None") "provider" ≠ "aws"
    ∧ (mainRun { cmd := Cmd.status, name := none } oracleNil w0).calls
        = [ApiCall.connect "us-east-1",
           ApiCall.listReq [("tag:Name", ["*"]), ("instance-state-name", ["running"])]] := by
  refine ⟨by decide, ?_⟩
  exact ((status_reporting w0 (metadata_get oracleNil "None")
    { cmd := Cmd.status, name := none } oracleNil).2.2 rfl rfl (by decide) (by decide)).1

/-- C9: the resolved metadata always contains the keys hostname, domain,
provider, role, repo and fqdn, and it contains the aws-specific keys
subnet, secgroup, keypair, ami, type and region exactly when the
resolved provider value is aws. -/
theorem metadata_key_presence (hiera : String → String → String) (node : String) :
    "hostname" ∈ (metadata_get hiera node).map Prod.fst
    ∧ "domain" ∈ (metadata_get hiera node).map Prod.fst
    ∧ "provider" ∈ (metadata_get hiera node).map Prod.fst
    ∧ "role" ∈ (metadata_get hiera node).map Prod.fst
    ∧ "repo" ∈ (metadata_get hiera node).map Prod.fst
    ∧ "fqdn" ∈ (metadata_get hiera node).map Prod.fst
    ∧ ("subnet" ∈ (metadata_get hiera node).map Prod.fst
        ↔ mget (metadata_get hiera node) "provider" = "aws")
    ∧ ("secgroup" ∈ (metadata_get hiera node).map Prod.fst
        ↔ mget (metadata_get hiera node) "provider" = "aws")
    ∧ ("keypair" ∈ (metadata_get hiera node).map Prod.fst
        ↔ mget (metadata_get hiera node) "provider" = "aws")
    ∧ ("ami" ∈ (metadata_get hiera node).map Prod.fst
        ↔ mget (metadata_get hiera node) "provider" = "aws")
    ∧ ("type" ∈ (metadata_get hiera node).map Prod.fst
        ↔ mget (metadata_get hiera node) "provider" = "aws")
    ∧ ("region" ∈ (metadata_get hiera node).map Prod.fst
        ↔ mget (metadata_get hiera node) "provider" = "aws") := by
  by_cases hp : hiera "metadata:provider" ("fqdn=" ++ node) = "aws" <;>
    simp [keys_metadata_get, mget_provider, hp]

/-- C10: the provisioning payload rendered during start depends only on
the hostname, fqdn, role and repo fields of the metadata. -/
theorem userdata_only_base_fields (m1 m2 : Metadata)
    (hh : mget m1 "hostname" = mget m2 "hostname")
    (hf : mget m1 "fqdn" = mget m2 "fqdn")
    (hr : mget m1 "role" = mget m2 "role")
    (hp : mget m1 "repo" = mget m2 "repo") :
    userdataFor m1 = userdataFor m2 := by
  unfold userdataFor
  rw [hh, hf, hr, hp]

theorem userdata_only_base_fields_witness :
    mget mA "ami" ≠ mget mB "ami"
    ∧ mget mA "region" ≠ mget mB "region"
    ∧ userdataFor mA = userdataFor mB := by
  exact ⟨by decide, by decide,
    userdata_only_base_fields mA mB (by decide) (by decide) (by decide) (by decide)⟩
